import Mathlib

/-!
Verification development for the Deed property-graph database
(`deed/core/graph.py`, `deed/core/entity.py`, `deed/core/edge.py`,
`deed/core/collection.py`).

Modelling conventions (a shallow embedding of the Python source):

* Python `dict` is modelled by an association list `List (K × V)` with
  insertion-order semantics: updating an existing key replaces the value
  in place, a new key is appended at the end — exactly Python's dict
  behaviour.  `alistLookup`, `alistInsert`, `alistRemove` below.
* Python `set` of strings is modelled by a duplicate-free `List String`
  where insertion appends when absent (`setInsert`, `setUnion`).  Set
  iteration order in Python is unspecified; the list order fixes one.
* `uuid4()` fresh identifiers are modelled by a deterministic fresh-name
  supply: the graph state carries `uuidCounter : Nat`; an auto-generated
  edge id is the current counter value, an auto-generated entity id is
  the string `uuid-<n>`.  Only freshness of the generated names matters
  to the source's behaviour.
* Property values (`Any` in Python) are modelled as opaque `String`s;
  the claims never inspect values beyond equality and membership.
* Fields that hold wall-clock times, floats (pheromone, statistics
  averages) and access counters are omitted: no claim under study
  mentions them, and floating point is outside the embedding.
* Code that can raise `KeyError` (indexing a dict with `[]`) is embedded
  in `Except String`, the error value `"KeyError"` standing for the
  uncaught exception.  Loops are given explicit fuel; running out of
  fuel yields the distinct error `"fuel"`, which never occurs on the
  concrete states evaluated here.
* Python object aliasing (a `Collection` stores references to the same
  `Entity` objects as the graph's entity table) is modelled by a single
  canonical entity table in `DeedGraph`; collections store member ids.
-/

namespace Deed

/-- Lookup in an association list (Python `d.get(k)` / `k in d`). -/
def alistLookup {K α : Type} [DecidableEq K] (k : K) : List (K × α) → Option α
  | [] => none
  | p :: ps => if p.1 = k then some p.2 else alistLookup k ps

/-- Python `d[k] = v`: replace in place if the key exists, else append. -/
def alistInsert {K α : Type} [DecidableEq K] (k : K) (v : α) : List (K × α) → List (K × α)
  | [] => [(k, v)]
  | p :: ps => if p.1 = k then (k, v) :: ps else p :: alistInsert k v ps

/-- Python `d.pop(k, None)` / `del d[k]`: drop the first binding of `k`. -/
def alistRemove {K α : Type} [DecidableEq K] (k : K) : List (K × α) → List (K × α)
  | [] => []
  | p :: ps => if p.1 = k then ps else p :: alistRemove k ps

/-- Python `s.add(x)` on a set: append when absent. -/
def setInsert (x : String) (s : List String) : List String :=
  if x ∈ s then s else s ++ [x]

/-- Python `s.update(t)`: fold `setInsert` over the additions. -/
def setUnion (s t : List String) : List String :=
  t.foldl (fun acc x => setInsert x acc) s

/-- Entity (`deed/core/entity.py`).  `_outgoing_edges` / `_incoming_edges`
are the entity-local adjacency: edge type → set of neighbor ids. -/
structure Entity where
  id : String
  type : String
  properties : List (String × String)
  outgoing_edges : List (String × List String)
  incoming_edges : List (String × List String)
deriving DecidableEq, Repr

instance : Inhabited Entity :=
  ⟨{ id := "", type := "", properties := [], outgoing_edges := [], incoming_edges := [] }⟩

/-- `Entity.has_property`. -/
def Entity.has_property (e : Entity) (key : String) : Bool :=
  (alistLookup key e.properties).isSome

/-- `Entity.get_property` (default `None` becomes `none`). -/
def Entity.get_property (e : Entity) (key : String) : Option String :=
  alistLookup key e.properties

/-- `Entity.add_outgoing_edge`. -/
def Entity.add_outgoing_edge (e : Entity) (edge_type target_id : String) : Entity :=
  { e with
    outgoing_edges :=
      alistInsert edge_type
        (setInsert target_id ((alistLookup edge_type e.outgoing_edges).getD []))
        e.outgoing_edges }

/-- `Entity.add_incoming_edge`. -/
def Entity.add_incoming_edge (e : Entity) (edge_type source_id : String) : Entity :=
  { e with
    incoming_edges :=
      alistInsert edge_type
        (setInsert source_id ((alistLookup edge_type e.incoming_edges).getD []))
        e.incoming_edges }

/-- `Entity.get_outgoing_neighbors`: one edge type, or the union over all.
(The source's `if edge_type:` treats `None` as "all types".) -/
def Entity.get_outgoing_neighbors (e : Entity) (edge_type : Option String) : List String :=
  match edge_type with
  | some t => (alistLookup t e.outgoing_edges).getD []
  | none => e.outgoing_edges.foldl (fun acc p => setUnion acc p.2) []

/-- `Entity.get_incoming_neighbors`. -/
def Entity.get_incoming_neighbors (e : Entity) (edge_type : Option String) : List String :=
  match edge_type with
  | some t => (alistLookup t e.incoming_edges).getD []
  | none => e.incoming_edges.foldl (fun acc p => setUnion acc p.2) []

/-- Edge (`deed/core/edge.py`); the auto-generated uuid id is a `Nat`
from the fresh-name supply.  Pheromone and timing metadata omitted. -/
structure Edge where
  id : Nat
  source_id : String
  target_id : String
  type : String
  properties : List (String × String)
deriving DecidableEq, Repr

/-- Index (`deed/core/collection.py`, class `Index`): a sorted
`(value, entity_id)` list plus a value → set-of-ids map. -/
structure Index where
  property_name : String
  sorted_entries : List (String × String)
  value_map : List (String × List String)
deriving DecidableEq, Repr

/-- Python tuple order on `(value, entity_id)` pairs, used by
`bisect.insort`. -/
def pairLe (x y : String × String) : Bool :=
  match compare x.1 y.1 with
  | .lt => true
  | .eq => compare x.2 y.2 != Ordering.gt
  | .gt => false

/-- `bisect.insort`: insert keeping the list sorted (after equal keys). -/
def insort (x : String × String) : List (String × String) → List (String × String)
  | [] => [x]
  | y :: ys => if pairLe y x then y :: insort x ys else x :: y :: ys

/-- `Index.insert`. -/
def Index.insert (idx : Index) (entity : Entity) : Index :=
  match entity.get_property idx.property_name with
  | none => idx
  | some value =>
    { idx with
      value_map :=
        alistInsert value (setInsert entity.id ((alistLookup value idx.value_map).getD []))
          idx.value_map,
      sorted_entries := insort (value, entity.id) idx.sorted_entries }

/-- `Index.remove`: only acts when the entity currently has the property;
drops the id from the value map (deleting an emptied bucket) and filters
the sorted list. -/
def Index.remove (idx : Index) (entity : Entity) : Index :=
  match entity.get_property idx.property_name with
  | none => idx
  | some value =>
    let vm :=
      match alistLookup value idx.value_map with
      | none => idx.value_map
      | some s =>
        let s' := s.filter (fun i => i ≠ entity.id)
        if s'.isEmpty then alistRemove value idx.value_map
        else alistInsert value s' idx.value_map
    { idx with
      value_map := vm,
      sorted_entries :=
        idx.sorted_entries.filter (fun p => !(p.1 == value && p.2 == entity.id)) }

/-- Collection (`deed/core/collection.py`).  The Python `_entities` dict
holds references to the graph's entity objects; here membership is the
list of ids, the canonical objects living in the graph's table.
Statistics fields are omitted. -/
structure Collection where
  name : String
  member_ids : List String
  indexes : List (String × Index)
deriving DecidableEq, Repr

/-- `Collection.add_entity` (the caller has already retyped the entity to
the collection's name): record membership and update every index. -/
def Collection.add_entity (coll : Collection) (entity : Entity) : Collection :=
  { coll with
    member_ids := setInsert entity.id coll.member_ids,
    indexes := coll.indexes.map (fun p => (p.1, p.2.insert entity)) }

/-- `Collection.remove_entity`: `entity` is the stored object (resolved
from the canonical table by the caller). -/
def Collection.remove_entity (coll : Collection) (entity_id : String) (entity : Entity) :
    Collection :=
  if entity_id ∈ coll.member_ids then
    { coll with
      member_ids := coll.member_ids.filter (fun i => i ≠ entity_id),
      indexes := coll.indexes.map (fun p => (p.1, p.2.remove entity)) }
  else coll

/-- `Collection.create_index`: idempotent; populates from the current
members (`entities` is the canonical table used to resolve ids). -/
def Collection.create_index (coll : Collection) (property_name : String)
    (entities : List (String × Entity)) : Collection :=
  if (alistLookup property_name coll.indexes).isSome then coll
  else
    let base : Index := { property_name := property_name, sorted_entries := [], value_map := [] }
    let idx := coll.member_ids.foldl
      (fun idx i =>
        match alistLookup i entities with
        | some e => idx.insert e
        | none => idx) base
    { coll with indexes := alistInsert property_name idx coll.indexes }

/-- DeedGraph (`deed/core/graph.py`): entity table, edge table, the two
adjacency directories (source → type → target → edge id and its mirror),
collections, the fresh-uuid supply, and the entity/edge counters of
`stats`. -/
structure DeedGraph where
  graph_id : String
  entities : List (String × Entity)
  edges : List (Nat × Edge)
  outgoing : List (String × List (String × List (String × Nat)))
  incoming : List (String × List (String × List (String × Nat)))
  collections : List (String × Collection)
  uuidCounter : Nat
  total_entities : Int
  total_edges : Int
deriving DecidableEq, Repr

/-- `DeedGraph.__init__`. -/
def emptyGraph (graph_id : String) : DeedGraph :=
  { graph_id := graph_id, entities := [], edges := [], outgoing := [], incoming := [],
    collections := [], uuidCounter := 0, total_entities := 0, total_edges := 0 }

/-- Auto-generated entity id for the fresh-name supply. -/
def freshEntityId (n : Nat) : String := "uuid-" ++ toString n

/-- `DeedGraph.add_entity`: build the entity (type falls back to the
collection name, then `"Unknown"`), store it, initialise both adjacency
directories, and add it to the named collection (created when absent) —
which also retypes the entity to the collection name.  Returns the
created entity together with the new state. -/
def DeedGraph.add_entity (g : DeedGraph) (entity_type : Option String)
    (properties : List (String × String)) (entity_id : Option String)
    (collection_name : Option String) : Entity × DeedGraph :=
  let id := entity_id.getD (freshEntityId g.uuidCounter)
  let counter := if entity_id.isNone then g.uuidCounter + 1 else g.uuidCounter
  let entity : Entity :=
    { id := id,
      type := (entity_type.getD (collection_name.getD "Unknown")),
      properties := properties, outgoing_edges := [], incoming_edges := [] }
  let g1 : DeedGraph :=
    { g with
      entities := alistInsert entity.id entity g.entities,
      outgoing := alistInsert entity.id [] g.outgoing,
      incoming := alistInsert entity.id [] g.incoming,
      uuidCounter := counter,
      total_entities := g.total_entities + 1 }
  match collection_name with
  | none => (entity, g1)
  | some cname =>
    let coll := (alistLookup cname g1.collections).getD
      { name := cname, member_ids := [], indexes := [] }
    let entity' := { entity with type := cname }
    let coll' := coll.add_entity entity'
    (entity',
      { g1 with
        entities := alistInsert entity.id entity' g1.entities,
        collections := alistInsert cname coll' g1.collections })

/-- `DeedGraph.add_edge`: `None` when an endpoint is missing; otherwise a
fresh edge is stored in the edge table, both adjacency directories are
updated (the *(type, target)* slot is overwritten), and both endpoint
entities' local neighbor sets are extended.  The direct dict indexing
`self._outgoing[source_id]` / `self._incoming[target_id]` raises
`KeyError` when the adjacency entry is absent. -/
def DeedGraph.add_edge (g : DeedGraph) (source_id target_id edge_type : String)
    (properties : List (String × String)) : Except String (Option Edge × DeedGraph) :=
  match alistLookup source_id g.entities, alistLookup target_id g.entities with
  | some ea, some _ =>
    let edge : Edge :=
      { id := g.uuidCounter, source_id := source_id, target_id := target_id,
        type := edge_type, properties := properties }
    match alistLookup source_id g.outgoing with
    | none => .error "KeyError"
    | some outMap =>
      match alistLookup target_id g.incoming with
      | none => .error "KeyError"
      | some inMap =>
        let outMap' := alistInsert edge_type
          (alistInsert target_id edge.id ((alistLookup edge_type outMap).getD [])) outMap
        let inMap' := alistInsert edge_type
          (alistInsert source_id edge.id ((alistLookup edge_type inMap).getD [])) inMap
        let entities1 :=
          alistInsert source_id (ea.add_outgoing_edge edge_type target_id) g.entities
        let entities2 :=
          match alistLookup target_id entities1 with
          | some eb => alistInsert target_id (eb.add_incoming_edge edge_type source_id) entities1
          | none => entities1
        .ok (some edge,
          { g with
            entities := entities2,
            edges := alistInsert edge.id edge g.edges,
            outgoing := alistInsert source_id outMap' g.outgoing,
            incoming := alistInsert target_id inMap' g.incoming,
            uuidCounter := g.uuidCounter + 1,
            total_edges := g.total_edges + 1 })
  | _, _ => .ok (none, g)

/-- `DeedGraph.get_edges_between`: read the `(source, type, target)` slot
of the outgoing directory and resolve edge ids through the edge table
(`self._edges[edge_id]` raises on a dangling id). -/
def DeedGraph.get_edges_between (g : DeedGraph) (source_id target_id : String)
    (edge_type : Option String) : Except String (List Edge) :=
  match alistLookup source_id g.outgoing with
  | none => .ok []
  | some outMap =>
    match edge_type with
    | some t =>
      match alistLookup t outMap with
      | none => .ok []
      | some tmap =>
        match alistLookup target_id tmap with
        | none => .ok []
        | some eid =>
          match alistLookup eid g.edges with
          | none => .error "KeyError"
          | some e => .ok [e]
    | none =>
      outMap.foldl
        (fun acc p =>
          match acc with
          | .error s => .error s
          | .ok es =>
            match alistLookup target_id p.2 with
            | none => .ok es
            | some eid =>
              match alistLookup eid g.edges with
              | none => .error "KeyError"
              | some e => .ok (es ++ [e])) (.ok [])

/-- `DeedGraph.remove_entity`: `False` when absent; otherwise remove the
entity from the collection named by its type, delete every incident edge
from the edge table while erasing the mirror adjacency slots of the
other endpoints, drop the entity's own adjacency entries, and erase the
entity.  The incoming phase reads the adjacency state left by the
outgoing phase, as the in-place Python mutation does.  Note: the
*entity-local* neighbor sets of the surviving endpoints are never
touched by the source. -/
def DeedGraph.remove_entity (g : DeedGraph) (entity_id : String) : Bool × DeedGraph :=
  match alistLookup entity_id g.entities with
  | none => (false, g)
  | some entity =>
    let g1 :=
      match alistLookup entity.type g.collections with
      | some coll =>
        { g with collections :=
            alistInsert entity.type (coll.remove_entity entity_id entity) g.collections }
      | none => g
    let g2 :=
      match alistLookup entity_id g1.outgoing with
      | none => g1
      | some outMap =>
        outMap.foldl
          (fun (g : DeedGraph) (p : String × List (String × Nat)) =>
            p.2.foldl
              (fun (g : DeedGraph) (q : String × Nat) =>
                let g' := { g with edges := alistRemove q.2 g.edges }
                match alistLookup q.1 g'.incoming with
                | none => g'
                | some inMap =>
                  match alistLookup p.1 inMap with
                  | none => g'
                  | some srcMap =>
                    { g' with
                      incoming :=
                        alistInsert q.1 (alistInsert p.1 (alistRemove entity_id srcMap) inMap)
                          g'.incoming }) g) g1
    let g3 :=
      match alistLookup entity_id g2.incoming with
      | none => g2
      | some inMap =>
        inMap.foldl
          (fun (g : DeedGraph) (p : String × List (String × Nat)) =>
            p.2.foldl
              (fun (g : DeedGraph) (q : String × Nat) =>
                let g' := { g with edges := alistRemove q.2 g.edges }
                match alistLookup q.1 g'.outgoing with
                | none => g'
                | some outMap =>
                  match alistLookup p.1 outMap with
                  | none => g'
                  | some tgtMap =>
                    { g' with
                      outgoing :=
                        alistInsert q.1 (alistInsert p.1 (alistRemove entity_id tgtMap) outMap)
                          g'.outgoing }) g) g2
    (true,
      { g3 with
        outgoing := alistRemove entity_id g3.outgoing,
        incoming := alistRemove entity_id g3.incoming,
        entities := alistRemove entity_id g3.entities,
        total_entities := g3.total_entities - 1 })

/-- `filter_fn and not filter_fn(current_entity)`: whether the optional
predicate rejects the node. -/
def filterRejects : Option (Entity → Bool) → Entity → Bool
  | some f, e => !(f e)
  | none, _ => false

/-- Neighbor set built by one `traverse` iteration: the union of the
outgoing and/or incoming entity-local neighbor sets, per `direction`. -/
def traversalNeighbors (e : Entity) (edge_type : Option String) (direction : String) :
    List String :=
  let n1 :=
    if direction = "out" ∨ direction = "both" then
      setUnion [] (e.get_outgoing_neighbors edge_type)
    else []
  if direction = "in" ∨ direction = "both" then
    setUnion n1 (e.get_incoming_neighbors edge_type)
  else n1

/-- The `while queue:` loop of `DeedGraph.traverse`, with explicit fuel.
Each iteration pops `(current_id, depth)`; an already-visited id is
skipped; the entity is fetched from the table (`KeyError` when absent —
the table is indexed directly); the node is marked visited, then the
filter may drop the iteration; the node is emitted unless it is the
start; within the depth bound, unvisited neighbors are appended at
`depth + 1`. -/
def traverseLoop (g : DeedGraph) (start_id : String) (edge_type : Option String)
    (direction : String) (max_depth : Nat) (filter_fn : Option (Entity → Bool)) :
    Nat → List (String × Nat) → List String → List Entity → Except String (List Entity)
  | 0, q, _, res => if q.isEmpty then .ok res else .error "fuel"
  | _ + 1, [], _, res => .ok res
  | fuel + 1, (cur, d) :: q, vis, res =>
    if cur ∈ vis then
      traverseLoop g start_id edge_type direction max_depth filter_fn fuel q vis res
    else
      match alistLookup cur g.entities with
      | none => .error "KeyError"
      | some ent =>
        let vis' := vis ++ [cur]
        if filterRejects filter_fn ent then
          traverseLoop g start_id edge_type direction max_depth filter_fn fuel q vis' res
        else
          let res' := if cur = start_id then res else res ++ [ent]
          if d < max_depth then
            let nbrs := traversalNeighbors ent edge_type direction
            traverseLoop g start_id edge_type direction max_depth filter_fn fuel
              (q ++ (nbrs.filter (fun n => !(vis'.contains n))).map (fun n => (n, d + 1)))
              vis' res'
          else
            traverseLoop g start_id edge_type direction max_depth filter_fn fuel q vis' res'

/-- Total neighbor-set size of one entity, used to bound the loop. -/
def entityNeighborTotal (e : Entity) : Nat :=
  (e.outgoing_edges.map (fun p => p.2.length)).sum
    + (e.incoming_edges.map (fun p => p.2.length)).sum

/-- Fuel bound for `traverse`: the loop pops at most one entry per unit,
and at most `1 + Σ neighbor-set sizes` entries are ever queued. -/
def traverseFuel (g : DeedGraph) : Nat :=
  1 + (g.entities.map (fun p => 1 + entityNeighborTotal p.2)).sum

/-- `DeedGraph.traverse`: empty result for an unknown start, otherwise
the BFS loop seeded with `(start_id, 0)`. -/
def DeedGraph.traverse (g : DeedGraph) (start_id : String) (edge_type : Option String)
    (direction : String) (max_depth : Nat) (filter_fn : Option (Entity → Bool)) :
    Except String (List Entity) :=
  match alistLookup start_id g.entities with
  | none => .ok []
  | some _ =>
    traverseLoop g start_id edge_type direction max_depth filter_fn (traverseFuel g)
      [(start_id, 0)] [] []

/-- Builder mirroring `graph.get_collection(name).create_index(prop)`
(the collection object is aliased inside the store, so the updated
collection is written back to the map). -/
def createIndexOn (g : DeedGraph) (cname prop : String) : DeedGraph :=
  match alistLookup cname g.collections with
  | none => g
  | some coll =>
    { g with collections := alistInsert cname (coll.create_index prop g.entities) g.collections }

/-- Builder: apply `add_edge` and keep the new state (the fallback
branches never fire on the concrete states below, where both endpoints
and their adjacency entries exist). -/
def addEdgeD (g : DeedGraph) (s t ty : String) : DeedGraph :=
  match g.add_edge s t ty [] with
  | .ok (_, g') => g'
  | .error _ => g

/-- Concrete state for claim C1: collection `Users` with an index on
`name`, entities `alice` and `bob`, and the edge
`alice -FOLLOWS-> bob` — all built through the public API. -/
def gC1 : DeedGraph :=
  let g := emptyGraph "deed_db"
  let g := ((g.add_entity none [("name", "Alice")] (some "alice") (some "Users"))).2
  let g := ((g.add_entity none [("name", "Bob")] (some "bob") (some "Users"))).2
  let g := createIndexOn g "Users" "name"
  addEdgeD g "alice" "bob" "FOLLOWS"

/-- The state after `remove_entity("bob")` on `gC1`, paired with the
returned flag. -/
def gC1removed : Bool × DeedGraph := gC1.remove_entity "bob"

/-- Concrete state for claim C2: the chain
`a -FOLLOWS-> b -FOLLOWS-> c`. -/
def gC2 : DeedGraph :=
  let g := emptyGraph "deed_db"
  let g := ((g.add_entity (some "Node") [] (some "a") none)).2
  let g := ((g.add_entity (some "Node") [] (some "b") none)).2
  let g := ((g.add_entity (some "Node") [] (some "c") none)).2
  addEdgeD (addEdgeD g "a" "b" "FOLLOWS") "b" "c" "FOLLOWS"

/-- The C2 predicate: accept every node except `b`. -/
def fC2 : Entity → Bool := fun e => e.id != "b"

/-- The entity stored under `"b"` in `gC2` (well-defined: the lookup
succeeds on this concrete state). -/
def gC2b : Entity := (alistLookup "b" gC2.entities).getD default

/-- Concrete base state for claim C3: entities `a` and `b`. -/
def gC3base : DeedGraph :=
  let g := emptyGraph "deed_db"
  let g := ((g.add_entity (some "Node") [] (some "a") none)).2
  ((g.add_entity (some "Node") [] (some "b") none)).2

/-- The C3 state: `add_edge("a", "b", "T")` applied twice. -/
def gC3two : DeedGraph := addEdgeD (addEdgeD gC3base "a" "b" "T") "a" "b" "T"

/-- Number of records in the edge table with the given source, target
and type — the quantity claim C3 speaks about. -/
def countEdgesBetween (g : DeedGraph) (a b t : String) : Nat :=
  (g.edges.filter (fun p => p.2.source_id == a && p.2.target_id == b && p.2.type == t)).length

theorem alistLookup_insert_self {K α : Type} [DecidableEq K] (k : K) (v : α)
    (l : List (K × α)) : alistLookup k (alistInsert k v l) = some v := by
  induction l with
  | nil => simp [alistInsert, alistLookup]
  | cons p ps ih =>
    by_cases h : p.1 = k
    · simp [alistInsert, alistLookup, h]
    · simp [alistInsert, alistLookup, h, ih]

theorem alistLookup_insert_ne {K α : Type} [DecidableEq K] {k k' : K} (v : α)
    (l : List (K × α)) (h : k ≠ k') :
    alistLookup k (alistInsert k' v l) = alistLookup k l := by
  induction l with
  | nil => simp [alistInsert, alistLookup, Ne.symm h]
  | cons p ps ih =>
    by_cases h1 : p.1 = k'
    · simp [alistInsert, alistLookup, h1, h, Ne.symm h]
    · simp [alistInsert, alistLookup, h1, h, Ne.symm h, ih]

theorem alistLookup_isSome_insert {K α : Type} [DecidableEq K] {k k' : K} (v : α)
    (l : List (K × α)) (h : (alistLookup k l).isSome) :
    (alistLookup k (alistInsert k' v l)).isSome := by
  by_cases hk : k = k'
  · subst hk; simp [alistLookup_insert_self]
  · rw [alistLookup_insert_ne v l hk]; exact h

theorem alistInsert_of_lookup_none {K α : Type} [DecidableEq K] {k : K} (v : α)
    {l : List (K × α)} (h : alistLookup k l = none) :
    alistInsert k v l = l ++ [(k, v)] := by
  induction l with
  | nil => simp [alistInsert]
  | cons p ps ih =>
    by_cases h1 : p.1 = k
    · simp [alistLookup, h1] at h
    · simp only [alistLookup, h1, if_false] at h
      simp [alistInsert, h1, ih h]

theorem alistLookup_none_of_keys_lt {α : Type} {l : List (Nat × α)} {n : Nat}
    (h : ∀ p ∈ l, p.1 < n) : alistLookup n l = none := by
  induction l with
  | nil => simp [alistLookup]
  | cons p ps ih =>
    have hp : p.1 ≠ n := Nat.ne_of_lt (h p (List.mem_cons_self p ps))
    simp only [alistLookup, hp, if_false]
    exact ih (fun q hq => h q (List.mem_cons_of_mem p hq))

/-- Invariant of the traversal loop: with a filter installed, every
entity it ever appends to the result satisfies the filter, so a
successful run starting from a clean accumulator emits only satisfying
entities. -/
theorem traverseLoop_filter_sound (g : DeedGraph) (s : String) (et : Option String)
    (dir : String) (maxd : Nat) (f : Entity → Bool) :
    ∀ (fuel : Nat) (q : List (String × Nat)) (vis : List String) (res l : List Entity),
      (∀ e ∈ res, f e = true) →
      traverseLoop g s et dir maxd (some f) fuel q vis res = .ok l →
      ∀ e ∈ l, f e = true := by
  intro fuel
  induction fuel with
  | zero =>
    intro q vis res l hres h
    cases q with
    | nil =>
      simp only [traverseLoop, List.isEmpty_nil, if_true, Except.ok.injEq] at h
      exact h ▸ hres
    | cons p ps => simp [traverseLoop] at h
  | succ n ih =>
    intro q vis res l hres h
    cases q with
    | nil =>
      simp only [traverseLoop, Except.ok.injEq] at h
      exact h ▸ hres
    | cons p ps =>
      obtain ⟨cur, d⟩ := p
      rw [traverseLoop] at h
      by_cases hv : cur ∈ vis
      · rw [if_pos hv] at h
        exact ih ps vis res l hres h
      · rw [if_neg hv] at h
        cases hcur : alistLookup cur g.entities with
        | none => rw [hcur] at h; cases h
        | some ent =>
          rw [hcur] at h
          simp only at h
          by_cases hf : filterRejects (some f) ent
          · rw [if_pos hf] at h
            exact ih ps (vis ++ [cur]) res l hres h
          · rw [if_neg hf] at h
            have hfe : f ent = true := by
              simpa [filterRejects] using hf
            have hres' : ∀ e ∈ (if cur = s then res else res ++ [ent]), f e = true := by
              intro e he
              by_cases hc : cur = s
              · rw [if_pos hc] at he; exact hres e he
              · rw [if_neg hc] at he
                rcases List.mem_append.mp he with h1 | h1
                · exact hres e h1
                · rw [List.mem_singleton.mp h1]; exact hfe
            by_cases hd : d < maxd
            · rw [if_pos hd] at h
              exact ih _ _ _ l hres' h
            · rw [if_neg hd] at h
              exact ih ps (vis ++ [cur]) _ l hres' h

/-- Claim C1: the claim states that after `remove_entity(id)` returns
true no structure still references `id` — in particular every remaining
entity's local outgoing/incoming neighbor sets no longer contain `id`,
so a traverse from a former neighbor succeeds and never emits `id`.
The code violates this: on the concrete reachable state `gC1`
(`alice -FOLLOWS-> bob`, both in collection `Users` with an index on
`name`), `remove_entity "bob"` returns true and does clean the edge
table, the collection, the index and the graph-level adjacency
directory, but `alice`'s entity-local outgoing set still contains
`"bob"`, and `traverse "alice"` — which reads exactly that set — aborts
with a `KeyError` instead of succeeding.  This contradicts the source's
own intent (`remove_entity` docstring: "Remove an entity and all its
edges") and is recorded as a code bug. -/
theorem C1_remove_entity_stale_neighbor_sets :
    gC1removed.1 = true
    ∧ (gC1removed.2.edges.filter
        (fun p => p.2.source_id == "bob" || p.2.target_id == "bob")).length = 0
    ∧ (alistLookup "Users" gC1removed.2.collections).map (fun c => c.member_ids)
        = some ["alice"]
    ∧ (alistLookup "Users" gC1removed.2.collections).map
        (fun c => c.indexes.map (fun pi => (pi.1, pi.2.sorted_entries, pi.2.value_map)))
        = some [("name", [("Alice", "alice")], [("Alice", ["alice"])])]
    ∧ (alistLookup "alice" gC1removed.2.outgoing).map
        (fun m => (alistLookup "FOLLOWS" m).getD []) = some []
    ∧ (alistLookup "alice" gC1removed.2.entities).map
        (fun e => e.get_outgoing_neighbors (some "FOLLOWS")) = some ["bob"]
    ∧ gC1removed.2.traverse "alice" (some "FOLLOWS") "out" 1 none = .error "KeyError" :=
  ⟨rfl, rfl, rfl, rfl, rfl, rfl, rfl⟩

/-- Claim C2 counterexample: the claim says a node failing the predicate
is skipped only on emission and its successors are still queued.  On the
chain `a -FOLLOWS-> b -FOLLOWS-> c` with the predicate rejecting `b`,
the claim demands that `c` (which satisfies the predicate, lies at depth
2 and is reachable, as the unfiltered run shows) be emitted; the code
returns the empty list, because the filtered node `b` is dropped before
its successors are queued. -/
theorem C2_filter_prunes_counterexample :
    gC2.traverse "a" (some "FOLLOWS") "out" 2 (some fC2) = .ok []
    ∧ (gC2.traverse "a" (some "FOLLOWS") "out" 2 none).map (fun l => l.map Entity.id)
        = .ok ["b", "c"]
    ∧ fC2 gC2b = false
    ∧ (alistLookup "c" gC2.entities).map fC2 = some true :=
  ⟨rfl, rfl, rfl, rfl⟩

/-- Claim C2 (amended): traverse applies the predicate to continuation
as well as emission.  For every store state, start id, edge type,
direction, depth bound and predicate: (1) every entity in a successful
result satisfies the predicate, and (2) when the loop dequeues an
unvisited node whose entity fails the predicate, the iteration is
dropped whole — the node is merely marked visited, nothing is emitted
and none of its successors are queued. -/
theorem C2_traverse_filter_on_continuation
    (g : DeedGraph) (s : String) (et : Option String) (dir : String) (maxd : Nat)
    (f : Entity → Bool) (l : List Entity) (fuel d : Nat) (q : List (String × Nat))
    (vis : List String) (res : List Entity) (cur : String) (ent : Entity)
    (hlook : alistLookup cur g.entities = some ent)
    (hf : f ent = false) (hvis : cur ∉ vis) :
    (g.traverse s et dir maxd (some f) = .ok l → ∀ e ∈ l, f e = true)
    ∧ traverseLoop g s et dir maxd (some f) (fuel + 1) ((cur, d) :: q) vis res
        = traverseLoop g s et dir maxd (some f) fuel q (vis ++ [cur]) res := by
  constructor
  · intro h
    unfold DeedGraph.traverse at h
    cases hs : alistLookup s g.entities with
    | none =>
      rw [hs] at h
      cases h
      intro e he
      cases he
    | some e0 =>
      rw [hs] at h
      exact traverseLoop_filter_sound g s et dir maxd f _ _ _ _ l (by intro e he; cases he) h
  · rw [traverseLoop, if_neg hvis, hlook]
    simp [filterRejects, hf]

/-- Witness for C2's amended theorem at the concrete chain state. -/
theorem C2_traverse_filter_on_continuation_witness :
    ((gC2.traverse "a" (some "FOLLOWS") "out" 2 (some fC2) = .ok []
        → ∀ e ∈ ([] : List Entity), fC2 e = true)
      ∧ traverseLoop gC2 "a" (some "FOLLOWS") "out" 2 (some fC2) 6 [("b", 1)] ["a"] []
          = traverseLoop gC2 "a" (some "FOLLOWS") "out" 2 (some fC2) 5 [] ["a"] []) :=
  C2_traverse_filter_on_continuation gC2 "a" (some "FOLLOWS") "out" 2 fC2 [] 5 1 []
    ["a"] [] "b" gC2b rfl rfl (by decide)

/-- Characterization of a successful `add_edge`: when both endpoints
and their adjacency entries exist, the call returns the freshly numbered
edge, appends it to the edge table, overwrites the `(source, type,
target)` slot of both adjacency directories, bumps the fresh-name
supply, and keeps both endpoints present in the entity table. -/
theorem add_edge_ok (g : DeedGraph) (a b t : String) (ea eb : Entity)
    (oa ib : List (String × List (String × Nat)))
    (hea : alistLookup a g.entities = some ea)
    (heb : alistLookup b g.entities = some eb)
    (hoa : alistLookup a g.outgoing = some oa)
    (hib : alistLookup b g.incoming = some ib) :
    ∃ g' : DeedGraph,
      g.add_edge a b t []
        = .ok (some { id := g.uuidCounter, source_id := a, target_id := b, type := t,
                      properties := [] }, g')
      ∧ g'.edges = alistInsert g.uuidCounter
          { id := g.uuidCounter, source_id := a, target_id := b, type := t,
            properties := [] } g.edges
      ∧ g'.outgoing = alistInsert a
          (alistInsert t (alistInsert b g.uuidCounter ((alistLookup t oa).getD [])) oa)
          g.outgoing
      ∧ g'.incoming = alistInsert b
          (alistInsert t (alistInsert a g.uuidCounter ((alistLookup t ib).getD [])) ib)
          g.incoming
      ∧ g'.uuidCounter = g.uuidCounter + 1
      ∧ (alistLookup a g'.entities).isSome
      ∧ (alistLookup b g'.entities).isSome := by
  have hb1 : (alistLookup b (alistInsert a (ea.add_outgoing_edge t b) g.entities)).isSome :=
    alistLookup_isSome_insert _ _ (by simp [heb])
  obtain ⟨eb1, heb1⟩ := Option.isSome_iff_exists.mp hb1
  have H : g.add_edge a b t []
      = .ok (some { id := g.uuidCounter, source_id := a, target_id := b, type := t,
                    properties := [] },
             { g with
               entities := alistInsert b (eb1.add_incoming_edge t a)
                 (alistInsert a (ea.add_outgoing_edge t b) g.entities),
               edges := alistInsert g.uuidCounter
                 { id := g.uuidCounter, source_id := a, target_id := b, type := t,
                   properties := [] } g.edges,
               outgoing := alistInsert a
                 (alistInsert t (alistInsert b g.uuidCounter ((alistLookup t oa).getD [])) oa)
                 g.outgoing,
               incoming := alistInsert b
                 (alistInsert t (alistInsert a g.uuidCounter ((alistLookup t ib).getD [])) ib)
                 g.incoming,
               uuidCounter := g.uuidCounter + 1,
               total_edges := g.total_edges + 1 }) := by
    simp only [DeedGraph.add_edge, hea, heb, hoa, hib, heb1]
  refine ⟨_, H, rfl, rfl, rfl, rfl, ?_, ?_⟩
  · exact alistLookup_isSome_insert _ _ (alistLookup_isSome_insert _ _ (by simp [hea]))
  · simp [alistLookup_insert_self]

/-- Claim C3 counterexample: after calling `add_edge("a", "b", "T")`
twice on a state holding entities `a` and `b`, the edge table holds two
records with source `a`, target `b` and type `T` — not the single
record the claim asserts (while `get_edges_between` does return a list
of length 1). -/
theorem C3_duplicate_edge_counterexample :
    countEdgesBetween gC3two "a" "b" "T" = 2
    ∧ (gC3two.get_edges_between "a" "b" (some "T")).map List.length = .ok 1 :=
  ⟨rfl, rfl⟩

/-- Claim C3 (amended): calling `add_edge(a, b, t)` twice with the same
existing endpoints collapses only the adjacency entry, not the edge
table: both calls succeed and return distinct edges with source `a`,
target `b` and type `t`; the edge table gains two such records (the
first no longer referenced by the adjacency directory); and
`get_edges_between(a, b, t)` returns a list of length 1, holding
exactly the second edge. -/
theorem C3_add_edge_twice_adjacency_collapse
    (g : DeedGraph) (a b t : String) (ea eb : Entity)
    (oa ib : List (String × List (String × Nat)))
    (hea : alistLookup a g.entities = some ea)
    (heb : alistLookup b g.entities = some eb)
    (hoa : alistLookup a g.outgoing = some oa)
    (hib : alistLookup b g.incoming = some ib)
    (hfresh : ∀ p ∈ g.edges, p.1 < g.uuidCounter) :
    ∃ (e1 e2 : Edge) (g1 g2 : DeedGraph),
      g.add_edge a b t [] = .ok (some e1, g1)
      ∧ g1.add_edge a b t [] = .ok (some e2, g2)
      ∧ e1.source_id = a ∧ e1.target_id = b ∧ e1.type = t
      ∧ e2.source_id = a ∧ e2.target_id = b ∧ e2.type = t
      ∧ e1 ≠ e2
      ∧ countEdgesBetween g2 a b t = countEdgesBetween g a b t + 2
      ∧ g2.get_edges_between a b (some t) = .ok [e2] := by
  obtain ⟨g1, H1, He1, Ho1, Hi1, Hc1, HaS, HbS⟩ :=
    add_edge_ok g a b t ea eb oa ib hea heb hoa hib
  obtain ⟨ea1, hea1⟩ := Option.isSome_iff_exists.mp HaS
  obtain ⟨eb1, heb1⟩ := Option.isSome_iff_exists.mp HbS
  have hoa1 : alistLookup a g1.outgoing
      = some (alistInsert t (alistInsert b g.uuidCounter ((alistLookup t oa).getD [])) oa) := by
    rw [Ho1]; exact alistLookup_insert_self _ _ _
  have hib1 : alistLookup b g1.incoming
      = some (alistInsert t (alistInsert a g.uuidCounter ((alistLookup t ib).getD [])) ib) := by
    rw [Hi1]; exact alistLookup_insert_self _ _ _
  obtain ⟨g2, H2, He2, Ho2, Hi2, Hc2, _, _⟩ :=
    add_edge_ok g1 a b t ea1 eb1 _ _ hea1 heb1 hoa1 hib1
  have hk1 : alistLookup g.uuidCounter g.edges = none := alistLookup_none_of_keys_lt hfresh
  have He1' : g1.edges = g.edges
      ++ [(g.uuidCounter,
           { id := g.uuidCounter, source_id := a, target_id := b, type := t,
             properties := [] })] := by
    rw [He1]; exact alistInsert_of_lookup_none _ hk1
  have hfresh1 : ∀ p ∈ g1.edges, p.1 < g1.uuidCounter := by
    rw [He1', Hc1]
    intro p hp
    rcases List.mem_append.mp hp with h1 | h1
    · exact Nat.lt_succ_of_lt (hfresh p h1)
    · rw [List.mem_singleton.mp h1]; exact Nat.lt_succ_self _
  have hk2 : alistLookup g1.uuidCounter g1.edges = none := alistLookup_none_of_keys_lt hfresh1
  have He2' : g2.edges = g1.edges
      ++ [(g1.uuidCounter,
           { id := g1.uuidCounter, source_id := a, target_id := b, type := t,
             properties := [] })] := by
    rw [He2]; exact alistInsert_of_lookup_none _ hk2
  refine ⟨_, _, g1, g2, H1, H2, rfl, rfl, rfl, rfl, rfl, rfl, ?_, ?_, ?_⟩
  · simp [Edge.mk.injEq, Hc1]
  · rw [countEdgesBetween, countEdgesBetween, He2', He1']
    simp [List.filter_append]
  · have hg2o : alistLookup a g2.outgoing
        = some (alistInsert t
            (alistInsert b g1.uuidCounter
              ((alistLookup t (alistInsert t (alistInsert b g.uuidCounter
                ((alistLookup t oa).getD [])) oa)).getD []))
            (alistInsert t (alistInsert b g.uuidCounter ((alistLookup t oa).getD [])) oa)) := by
      rw [Ho2]; exact alistLookup_insert_self _ _ _
    have hg2e : alistLookup g1.uuidCounter g2.edges
        = some { id := g1.uuidCounter, source_id := a, target_id := b, type := t,
                 properties := [] } := by
      rw [He2]; exact alistLookup_insert_self _ _ _
    simp only [DeedGraph.get_edges_between, hg2o, alistLookup_insert_self, hg2e]

/-- Witness for C3's amended theorem: the concrete two-entity state
`gC3base` with `add_edge("a", "b", "T")` applied twice. -/
theorem C3_add_edge_twice_adjacency_collapse_witness :
    ∃ (e1 e2 : Edge) (g1 g2 : DeedGraph),
      gC3base.add_edge "a" "b" "T" [] = .ok (some e1, g1)
      ∧ g1.add_edge "a" "b" "T" [] = .ok (some e2, g2)
      ∧ e1.source_id = "a" ∧ e1.target_id = "b" ∧ e1.type = "T"
      ∧ e2.source_id = "a" ∧ e2.target_id = "b" ∧ e2.type = "T"
      ∧ e1 ≠ e2
      ∧ countEdgesBetween g2 "a" "b" "T" = countEdgesBetween gC3base "a" "b" "T" + 2
      ∧ g2.get_edges_between "a" "b" (some "T") = .ok [e2] :=
  C3_add_edge_twice_adjacency_collapse gC3base "a" "b" "T"
    { id := "a", type := "Node", properties := [], outgoing_edges := [], incoming_edges := [] }
    { id := "b", type := "Node", properties := [], outgoing_edges := [], incoming_edges := [] }
    [] [] rfl rfl rfl rfl (by decide)

end Deed
